import Mathlib

/-!
Verification of the Loupe frei0r filter (src/filter/loupe/loupe.cpp).

The development shallowly embeds the filter's per-frame computation:

* `ease_in_out_sine` and `computeFade` embed the fade computation of
  `Loupe::update` (lines 99-106), with C doubles idealised as real numbers.
* `lerp` embeds the clamped linear interpolation helper (lines 17-23)
  over the rationals.
* `truncQ` models the C double-to-int conversion (truncation toward zero)
  and `Int.tdiv` is exactly C's truncating integer division.
* `resolve` embeds the per-region geometry computation (lines 128-150),
  field by field, over the rationals with exact integer rounding behaviour.
* `updateTrace` / `update` embed the compositing part of `Loupe::update`
  (lines 108-229) as the sequence of drawing operations issued to the
  rendering backend; the semantics of every operation other than the
  initial full-frame source copy is kept abstract (a parameter `interp`),
  since those are rasterised by cairo.  The fade factor is passed as a
  parameter (in the code it is the result of the fade computation).
-/

namespace Loupe

/-- Truncation toward zero of a rational, modelling the C conversion
from `double` to `int` as performed by the assignments in
`Loupe::update` (loupe.cpp lines 128-150). -/
def truncQ (q : ℚ) : ℤ := if 0 ≤ q then ⌊q⌋ else ⌈q⌉

/-- Embedding of the helper `lerp` (loupe.cpp lines 17-23): the factor is
clamped to `[0,1]` (first from above, then from below, as in the code)
before interpolating. -/
def lerp (f a b : ℚ) : ℚ :=
  let g := if f > 1 then 1 else f
  let g2 := if g < 0 then 0 else g
  (1 - g2) * a + g2 * b

/-- Embedding of `ease_in_out_sine` (loupe.cpp lines 25-27). -/
noncomputable def ease_in_out_sine (t : ℝ) : ℝ :=
  -(Real.cos (Real.pi * t) - 1) / 2

/-- The clamping done to the raw fade value in `Loupe::update`
(loupe.cpp lines 102-105): first to at most 1, then to at least 0. -/
noncomputable def clampR (f : ℝ) : ℝ :=
  let g := if f > 1 then 1 else f
  if g < 0 then 0 else g

/-- The fade computation of `Loupe::update` (loupe.cpp lines 101-106) on
effective (already scaled) `endTime` and `fadeDuration` values:
`raw = min(time, endTime - time) / fadeDuration`, clamped to `[0,1]`,
then eased.  In the code `endTime` and `fadeDuration` are the registered
parameters scaled by 1000 and 10 respectively (lines 99-100). -/
noncomputable def computeFade (time endTime fadeDuration : ℝ) : ℝ :=
  ease_in_out_sine (clampR (min time (endTime - time) / fadeDuration))

/-- A pair of doubles, as in `f0r_param_position`. -/
structure Pos where
  x : ℚ
  y : ℚ
deriving DecidableEq

/-- Per-region configuration, as in `Loupe::Region` (loupe.cpp lines 32-37). -/
structure Region where
  enable : Bool
  srcCenter : Pos
  srcSize : Pos
  dstCenter : Pos
  dstZoom : ℚ
deriving DecidableEq

/-- The per-region resolved geometry, as in the anonymous `info` struct of
`Loupe::update` (loupe.cpp lines 122-126). -/
structure RegionInfo where
  srcWidth : ℤ
  srcHeight : ℤ
  srcX0 : ℤ
  srcY0 : ℤ
  realZoom : ℚ
  dstWidth : ℤ
  dstHeight : ℤ
  dstX0 : ℤ
  dstY0 : ℤ
deriving DecidableEq

/-- Line 129: `info[i].srcWidth = regions[i].srcSize.x * height + 0.5;`. -/
def srcWidthZ (r : Region) (height : ℕ) : ℤ :=
  truncQ (r.srcSize.x * height + 1/2)

/-- Line 130: `info[i].srcHeight = regions[i].srcSize.y * height + 0.5;`. -/
def srcHeightZ (r : Region) (height : ℕ) : ℤ :=
  truncQ (r.srcSize.y * height + 1/2)

/-- Lines 131-132: `info[i].srcX0 = (regions[i].srcCenter.x * 2 - 0.5) *
width - info[i].srcWidth / 2 + 0.5;` where `srcWidth / 2` is C integer
division (truncating), embedded as `Int.tdiv`. -/
def srcX0Z (r : Region) (width height : ℕ) : ℤ :=
  truncQ ((r.srcCenter.x * 2 - 1/2) * width - (Int.tdiv (srcWidthZ r height) 2 : ℤ) + 1/2)

/-- Lines 133-134, the vertical analogue of `srcX0Z`. -/
def srcY0Z (r : Region) (height : ℕ) : ℤ :=
  truncQ ((r.srcCenter.y * 2 - 1/2) * height - (Int.tdiv (srcHeightZ r height) 2 : ℤ) + 1/2)

/-- Line 137: `info[i].realZoom = lerp(fade, 1, regions[i].dstZoom * 10);`. -/
def realZoomQ (r : Region) (fade : ℚ) : ℚ :=
  lerp fade 1 (r.dstZoom * 10)

/-- Line 138: `info[i].dstWidth = info[i].srcWidth * info[i].realZoom + 0.5;`. -/
def dstWidthZ (r : Region) (fade : ℚ) (height : ℕ) : ℤ :=
  truncQ ((srcWidthZ r height : ℚ) * realZoomQ r fade + 1/2)

/-- Line 139, the vertical analogue of `dstWidthZ`. -/
def dstHeightZ (r : Region) (fade : ℚ) (height : ℕ) : ℤ :=
  truncQ ((srcHeightZ r height : ℚ) * realZoomQ r fade + 1/2)

/-- Lines 140-144: `info[i].dstX0 = (lerp(fade, regions[i].srcCenter.x,
regions[i].dstCenter.x) * 2 - 0.5) * width - info[i].dstWidth / 2 + 0.5;`
with C integer division for `dstWidth / 2`. -/
def dstX0Z (r : Region) (fade : ℚ) (width height : ℕ) : ℤ :=
  truncQ ((lerp fade r.srcCenter.x r.dstCenter.x * 2 - 1/2) * width -
    (Int.tdiv (dstWidthZ r fade height) 2 : ℤ) + 1/2)

/-- Lines 145-149, the vertical analogue of `dstX0Z`. -/
def dstY0Z (r : Region) (fade : ℚ) (height : ℕ) : ℤ :=
  truncQ ((lerp fade r.srcCenter.y r.dstCenter.y * 2 - 1/2) * height -
    (Int.tdiv (dstHeightZ r fade height) 2 : ℤ) + 1/2)

/-- The region geometry resolver: the body of the loop on loupe.cpp lines
128-150, assembling all resolved fields for one region at a given fade. -/
def resolve (r : Region) (fade : ℚ) (width height : ℕ) : RegionInfo :=
  ⟨srcWidthZ r height, srcHeightZ r height, srcX0Z r width height, srcY0Z r height,
   realZoomQ r fade, dstWidthZ r fade height, dstHeightZ r fade height,
   dstX0Z r fade width height, dstY0Z r fade height⟩

/-- The source-rectangle part of the resolved geometry (loupe.cpp lines
129-134), extracted for comparison against the specification formulas. -/
structure SrcRect where
  srcWidth : ℤ
  srcHeight : ℤ
  srcX0 : ℤ
  srcY0 : ℤ
deriving DecidableEq

/-- The source rectangle of a resolved region. -/
def srcRect (i : RegionInfo) : SrcRect :=
  ⟨i.srcWidth, i.srcHeight, i.srcX0, i.srcY0⟩

/-- The specification's source-rectangle formulas, written from the spec's
words for comparison with the code (`srcWidth = round(srcSize.x ×
frameHeight)`, `srcX0 = round((srcCenter.x × 2 − 0.5) × frameWidth −
srcWidth/2)` with exact halves and rounding to nearest integer, and the
vertical analogues). -/
def specSrcRect (r : Region) (width height : ℕ) : SrcRect :=
  let sw := round (r.srcSize.x * height)
  let sh := round (r.srcSize.y * height)
  ⟨sw, sh,
   round ((r.srcCenter.x * 2 - 1/2) * width - (sw : ℚ) / 2),
   round ((r.srcCenter.y * 2 - 1/2) * height - (sh : ℚ) / 2)⟩

/-- One drawing operation issued by `Loupe::update` to the rendering
backend.  `baseCopy` is the full-frame source copy of lines 115-119;
the other operations carry the resolved geometry and effective line
widths they are issued with (lines 153-224). -/
inductive DrawOp where
  | baseCopy : DrawOp
  | pointerLine (i : RegionInfo) (bw : ℚ) : DrawOp
  | pointerBubble (i : RegionInfo) (bw bw2 : ℚ) : DrawOp
  | magnify (i : RegionInfo) : DrawOp
  | outline (i : RegionInfo) (w : ℚ) : DrawOp
  | wireSrc (i : RegionInfo) : DrawOp
  | wireDst (i : RegionInfo) : DrawOp
deriving DecidableEq

/-- The global configuration of the filter: display flags, appearance and
timing parameters, and the configured regions (loupe.cpp lines 237-244).
The code stores a fixed array of three regions; the list holds them in
order. -/
structure GlobalConfig where
  showWireframe : Bool
  showMagnified : Bool
  outlineWidth : ℚ
  pointerWidth : ℚ
  pointerOutlineWidth : ℚ
  fadeDuration : ℚ
  endTime : ℚ
  regions : List Region

/-- The operations drawn for one enabled region by the magnified-paint
loop body (loupe.cpp lines 158-197): pointer line, pointer bubble,
clipped magnified paint, and outline, with their effective widths. -/
def regionOps (cfg : GlobalConfig) (fade : ℚ) (height : ℕ) (i : RegionInfo) : List DrawOp :=
  let bw := lerp fade 0 (cfg.pointerWidth * 100 * height / 1080)
  let bw2 := lerp fade 0 (cfg.pointerOutlineWidth * 100 * height / 1080)
  let w := lerp (fade * 3) 0 (cfg.outlineWidth * 100 * height / 1080)
  [DrawOp.pointerLine i bw, DrawOp.pointerBubble i bw bw2, DrawOp.magnify i, DrawOp.outline i w]

/-- The sequence of drawing operations issued by `Loupe::update`
(loupe.cpp lines 115-224): the base copy, then — only if `showMagnified`
— the per-region magnification drawing for each enabled region (the loop
condition `n < numRegions && showMagnified` on line 153 skips the loop
entirely otherwise), then — only if `showWireframe` (line 216) — the
debug wireframes for each enabled region. -/
def updateTrace (cfg : GlobalConfig) (fade : ℚ) (width height : ℕ) : List DrawOp :=
  let infos := cfg.regions.map (fun r => (r, resolve r fade width height))
  [DrawOp.baseCopy]
  ++ (if cfg.showMagnified then
        (infos.filter (fun p => p.1.enable)).flatMap (fun p => regionOps cfg fade height p.2)
      else [])
  ++ (if cfg.showWireframe then
        (infos.filter (fun p => p.1.enable)).flatMap
          (fun p => [DrawOp.wireSrc p.2, DrawOp.wireDst p.2])
      else [])

/-- A pixel buffer: packed 32-bit ARGB values indexed by x and y. -/
def Buffer : Type := ℕ → ℕ → ℕ

/-- Semantics of one drawing operation on the destination buffer.  The
base copy (cairo `OPERATOR_SOURCE` fill of the whole frame, lines
115-119) replaces the destination by the source; every other operation
is rasterised by cairo, whose pixel-level effect is kept abstract as
`interp`. -/
def runOp (interp : DrawOp → Buffer → Buffer → Buffer) (src : Buffer)
    (dst : Buffer) (op : DrawOp) : Buffer :=
  match op with
  | DrawOp.baseCopy => src
  | op => interp op src dst

/-- The rendering entry point `Loupe::update` (loupe.cpp lines 97-229):
runs the issued drawing operations in order on the destination buffer.
As in the code, whose signature is `update(time, rawDst, rawSrc2,
rawSrc)`, the second source buffer `src2` is accepted and never used.
The fade factor is a parameter (in the code it is computed from the time
by the fade computation embedded in `computeFade`). -/
def update (interp : DrawOp → Buffer → Buffer → Buffer) (cfg : GlobalConfig)
    (fade : ℚ) (width height : ℕ) (dst src2 src : Buffer) : Buffer :=
  (updateTrace cfg fade width height).foldl (fun d op => runOp interp src d op) dst

/-- Region used to refute C1: even source width but an off-frame
(negative) source x position. -/
def cexC1 : Region :=
  ⟨true, ⟨1/10, 1/2⟩, ⟨1/5, 1/2⟩, ⟨1/2, 1/2⟩, 1/5⟩

/-- Region used to witness the amended C1. -/
def witC1 : Region :=
  ⟨true, ⟨1/2, 1/2⟩, ⟨1/5, 1/5⟩, ⟨1/2, 1/2⟩, 1/5⟩

/-- Region used to refute C2: the worked example of the specification
(`srcCenter=(0.5,0.5)`, `srcSize=(0.2,0.2)`, `dstCenter=(0.8,0.2)`,
`dstZoom=0.3`). -/
def cexC2 : Region :=
  ⟨true, ⟨1/2, 1/2⟩, ⟨1/5, 1/5⟩, ⟨4/5, 1/5⟩, 3/10⟩

/-- Region used to witness the amended C2. -/
def witC2 : Region :=
  ⟨true, ⟨1/2, 1/2⟩, ⟨1/5, 1/5⟩, ⟨4/5, 3/5⟩, 3/10⟩

/-- Region used to refute C3: a negative source size. -/
def cexC3 : Region :=
  ⟨true, ⟨1/2, 1/2⟩, ⟨-3/100, 1/2⟩, ⟨1/2, 1/2⟩, 1/5⟩

/-- Region used to refute C6: non-negative source size but negative
destination zoom. -/
def cexC6 : Region :=
  ⟨true, ⟨1/2, 1/2⟩, ⟨1/2, 1/2⟩, ⟨1/2, 1/2⟩, -1/10⟩

/-- Region used to refute C10: destination zoom 0 (within `[0,1]`). -/
def cexC10 : Region :=
  ⟨true, ⟨1/2, 1/2⟩, ⟨1/2, 1/2⟩, ⟨1/2, 1/2⟩, 0⟩

/-- A generic enabled region with in-range parameters, used in witnesses. -/
def witRegion : Region :=
  ⟨true, ⟨1/2, 1/2⟩, ⟨1/5, 1/5⟩, ⟨4/5, 3/5⟩, 1/5⟩

/-- A configuration with both display flags off, used to witness C8. -/
def cfgOff : GlobalConfig :=
  ⟨false, false, 3/100, 6/100, 3/100, 1/10, 1/100, [witRegion, cexC2, cexC3]⟩

/-! ### Helper lemmas -/

theorem truncQ_eq_floor {q : ℚ} (h : 0 ≤ q) : truncQ q = ⌊q⌋ := if_pos h

theorem truncQ_nonneg {q : ℚ} (h : 0 ≤ q) : 0 ≤ truncQ q := by
  rw [truncQ_eq_floor h]
  exact Int.floor_nonneg.mpr h

theorem lerp_zero (a b : ℚ) : lerp 0 a b = a := by
  norm_num [lerp]

theorem lerp_one (a b : ℚ) : lerp 1 a b = b := by
  norm_num [lerp]

theorem lerp_eq_of_le {f : ℚ} (a b : ℚ) (h0 : 0 ≤ f) (h1 : f ≤ 1) :
    lerp f a b = (1 - f) * a + f * b := by
  rw [lerp]
  simp only [if_neg (not_lt.mpr h1), if_neg (not_lt.mpr h0)]

theorem lerp_nonneg {a b : ℚ} (f : ℚ) (ha : 0 ≤ a) (hb : 0 ≤ b) : 0 ≤ lerp f a b := by
  rw [lerp]
  by_cases h1 : f > 1
  · simp only [if_pos h1]
    norm_num [hb]
  · simp only [if_neg h1]
    by_cases h2 : f < 0
    · simp only [if_pos h2]
      norm_num [ha]
    · push_neg at h1 h2
      simp only [if_neg (not_lt.mpr h2)]
      have hf1 : (0:ℚ) ≤ 1 - f := by linarith
      exact add_nonneg (mul_nonneg hf1 ha) (mul_nonneg h2 hb)

theorem ease_mem (t : ℝ) : 0 ≤ ease_in_out_sine t ∧ ease_in_out_sine t ≤ 1 := by
  rw [ease_in_out_sine]
  have h1 := Real.neg_one_le_cos (Real.pi * t)
  have h2 := Real.cos_le_one (Real.pi * t)
  constructor <;> linarith

theorem tdiv_two_cast_of_dvd {d : ℤ} (h : 2 ∣ d) :
    ((Int.tdiv d 2 : ℤ) : ℚ) = (d : ℚ) / 2 := by
  rw [Int.tdiv_eq_ediv_of_dvd h]
  obtain ⟨k, hk⟩ := h
  subst hk
  rw [Int.mul_ediv_cancel_left k (by norm_num)]
  push_cast
  ring

theorem tdiv_two_bounds {d : ℤ} (hd : 0 ≤ d) :
    (d : ℚ) / 2 - 1/2 ≤ ((Int.tdiv d 2 : ℤ) : ℚ) ∧ ((Int.tdiv d 2 : ℤ) : ℚ) ≤ (d : ℚ) / 2 := by
  rw [Int.tdiv_eq_ediv hd (by norm_num)]
  have hdm := Int.ediv_add_emod d 2
  have hca : ((2 * (d / 2) + d % 2 : ℤ) : ℚ) = (d : ℚ) := by rw [hdm]
  push_cast at hca
  rcases Int.emod_two_eq d with h | h <;> rw [h] at hca <;> push_cast at hca <;>
    constructor <;> linarith

theorem trunc_center_bound (B : ℚ) (d : ℤ) (hd : 0 ≤ d)
    (hA : 0 ≤ B - ((Int.tdiv d 2 : ℤ) : ℚ) + 1/2) :
    |((truncQ (B - ((Int.tdiv d 2 : ℤ) : ℚ) + 1/2) : ℤ) : ℚ) + (d : ℚ)/2 - B| ≤ 1 := by
  rw [truncQ_eq_floor hA]
  obtain ⟨hb1, hb2⟩ := tdiv_two_bounds hd
  have hf1 := Int.floor_le (B - ((Int.tdiv d 2 : ℤ) : ℚ) + 1/2)
  have hf2 := Int.lt_floor_add_one (B - ((Int.tdiv d 2 : ℤ) : ℚ) + 1/2)
  rw [abs_le]
  constructor <;> linarith

theorem resolve_srcWidth (r : Region) (f : ℚ) (w h : ℕ) :
    (resolve r f w h).srcWidth = srcWidthZ r h := rfl

theorem resolve_srcHeight (r : Region) (f : ℚ) (w h : ℕ) :
    (resolve r f w h).srcHeight = srcHeightZ r h := rfl

theorem resolve_srcX0 (r : Region) (f : ℚ) (w h : ℕ) :
    (resolve r f w h).srcX0 = srcX0Z r w h := rfl

theorem resolve_srcY0 (r : Region) (f : ℚ) (w h : ℕ) :
    (resolve r f w h).srcY0 = srcY0Z r h := rfl

theorem resolve_realZoom (r : Region) (f : ℚ) (w h : ℕ) :
    (resolve r f w h).realZoom = realZoomQ r f := rfl

theorem resolve_dstWidth (r : Region) (f : ℚ) (w h : ℕ) :
    (resolve r f w h).dstWidth = dstWidthZ r f h := rfl

theorem resolve_dstHeight (r : Region) (f : ℚ) (w h : ℕ) :
    (resolve r f w h).dstHeight = dstHeightZ r f h := rfl

theorem resolve_dstX0 (r : Region) (f : ℚ) (w h : ℕ) :
    (resolve r f w h).dstX0 = dstX0Z r f w h := rfl

theorem resolve_dstY0 (r : Region) (f : ℚ) (w h : ℕ) :
    (resolve r f w h).dstY0 = dstY0Z r f h := rfl

theorem clampR_of_one_le {x : ℝ} (h : 1 ≤ x) : clampR x = 1 := by
  simp only [clampR]
  by_cases hgt : x > 1
  · rw [if_pos hgt]
    norm_num
  · have hx : x = 1 := le_antisymm (not_lt.mp hgt) h
    rw [if_neg hgt, hx]
    norm_num

theorem clampR_eq_self {x : ℝ} (h0 : 0 ≤ x) (h1 : x ≤ 1) : clampR x = x := by
  simp only [clampR]
  rw [if_neg (not_lt.mpr h1), if_neg (not_lt.mpr h0)]

theorem ease_one : ease_in_out_sine 1 = 1 := by
  rw [ease_in_out_sine, mul_one, Real.cos_pi]
  norm_num

theorem ease_half : ease_in_out_sine (1/2) = 1/2 := by
  rw [ease_in_out_sine]
  rw [show Real.pi * (1/2) = Real.pi / 2 by ring, Real.cos_pi_div_two]
  norm_num

/-! ### Claim theorems -/

/-- C4: for every time value and every effective fadeDuration and endTime,
the per-frame fade factor (raw `min(time, endTime − time) / fadeDuration`,
clamped, then eased) lies in the interval `[0,1]`. -/
theorem c4_fade_in_unit_interval (time endTime fadeDuration : ℝ) :
    0 ≤ computeFade time endTime fadeDuration ∧
      computeFade time endTime fadeDuration ≤ 1 := by
  rw [computeFade]
  exact ease_mem _

/-- C5 counterexample: with `fadeDuration = endTime = 2` (so `0 <
fadeDuration` and `fadeDuration ≤ endTime` hold), the fade at the
midpoint `endTime/2` is `1/2`, not approximately 1. -/
theorem c5_counterexample :
    (0:ℝ) < 2 ∧ (2:ℝ) ≤ 2 ∧ computeFade (2/2) 2 2 = 1/2 := by
  refine ⟨by norm_num, le_refl 2, ?_⟩
  rw [computeFade]
  have hmin : min (2/2 : ℝ) (2 - 2/2) / 2 = 1/2 := by norm_num
  rw [hmin, clampR_eq_self (by norm_num) (by norm_num), ease_half]

/-- C5 (amended): for every `0 < fadeDuration ≤ endTime/2`, the fade at
the midpoint time `endTime/2` equals 1 exactly (the condition
`fadeDuration ≤ endTime` of the original claim only yields a raw fade of
`1/2` at the boundary; full fade-in at the midpoint needs the fade
duration to be at most half of the end time). -/
theorem c5_amended_midpoint_fully_faded (endTime fadeDuration : ℝ)
    (hd : 0 < fadeDuration) (hde : fadeDuration ≤ endTime / 2) :
    computeFade (endTime / 2) endTime fadeDuration = 1 := by
  rw [computeFade]
  have hmin : min (endTime / 2) (endTime - endTime / 2) = endTime / 2 := by
    rw [show endTime - endTime / 2 = endTime / 2 by ring, min_self]
  rw [hmin, clampR_of_one_le ((one_le_div hd).mpr hde), ease_one]

/-- C5 witness: at `endTime = 2`, `fadeDuration = 1` the hypotheses of the
amended claim hold and the midpoint fade is 1. -/
theorem c5_witness : (0:ℝ) < 1 ∧ (1:ℝ) ≤ 2/2 ∧ computeFade (2/2) 2 1 = 1 :=
  ⟨one_pos, by norm_num,
   c5_amended_midpoint_fully_faded 2 1 one_pos (by norm_num)⟩

/-- C7: the easing function `eased(t) = (1 − cos(π·t))/2` is monotone
non-decreasing on `[0,1]` and symmetric: `eased(t) + eased(1−t) = 1` for
every `t`. -/
theorem c7_easing_monotone_and_symmetric :
    (∀ s t : ℝ, 0 ≤ s → s ≤ t → t ≤ 1 →
      ease_in_out_sine s ≤ ease_in_out_sine t) ∧
    (∀ t : ℝ, ease_in_out_sine t + ease_in_out_sine (1 - t) = 1) := by
  constructor
  · intro s t hs hst ht1
    rw [ease_in_out_sine, ease_in_out_sine]
    have hps : 0 ≤ Real.pi * s := mul_nonneg Real.pi_pos.le hs
    have hpt : Real.pi * t ≤ Real.pi := by
      calc Real.pi * t ≤ Real.pi * 1 := by
            exact mul_le_mul_of_nonneg_left ht1 Real.pi_pos.le
        _ = Real.pi := mul_one _
    have hmono := Real.cos_le_cos_of_nonneg_of_le_pi hps hpt
      (mul_le_mul_of_nonneg_left hst Real.pi_pos.le)
    linarith
  · intro t
    rw [ease_in_out_sine, ease_in_out_sine]
    rw [show Real.pi * (1 - t) = Real.pi - Real.pi * t by ring, Real.cos_pi_sub]
    ring

/-- C7 witness: the monotonicity part applied at `s = 0`, `t = 1` and
the symmetry part applied at `t = 1/4`. -/
theorem c7_witness :
    ((0:ℝ) ≤ 0 ∧ (0:ℝ) ≤ 1 ∧ (1:ℝ) ≤ 1 ∧
      ease_in_out_sine 0 ≤ ease_in_out_sine 1) ∧
    ease_in_out_sine (1/4) + ease_in_out_sine (1 - 1/4) = 1 :=
  ⟨⟨le_refl 0, zero_le_one, le_refl 1,
    c7_easing_monotone_and_symmetric.1 0 1 (le_refl 0) zero_le_one (le_refl 1)⟩,
   c7_easing_monotone_and_symmetric.2 (1/4)⟩

/-- C3 counterexample: with the (out-of-range) source size x of `-3/100`
on a 100×100 frame, the code resolves `srcWidth = -2` at `fade = 0` but
`dstWidth = trunc(-2 · 1 + 0.5) = -1`, so the destination rectangle does
not equal the source rectangle even though `fade = 0`. -/
theorem c3_counterexample :
    (resolve cexC3 0 100 100).srcWidth = -2 ∧
    (resolve cexC3 0 100 100).dstWidth = -1 ∧
    (resolve cexC3 0 100 100).dstWidth ≠ (resolve cexC3 0 100 100).srcWidth := by
  have hrz : realZoomQ cexC3 0 = 1 := by
    rw [realZoomQ]
    exact lerp_zero 1 _
  have hsw : srcWidthZ cexC3 100 = -2 := by
    rw [srcWidthZ]
    norm_num [cexC3, truncQ, Int.ceil_eq_iff]
  have hdw : dstWidthZ cexC3 0 100 = -1 := by
    rw [dstWidthZ, hsw, hrz]
    norm_num [truncQ, Int.ceil_eq_iff]
  rw [resolve_srcWidth, resolve_dstWidth, hsw, hdw]
  norm_num

/-- C3 (amended): for every region with non-negative `srcSize.x` and
`srcSize.y` and every frame size, at `fade = 0` the resolved destination
rectangle equals the resolved source rectangle exactly and
`realZoom = 1`.  (The original claim quantified over every
configuration; a negative source size makes the widths disagree, as the
counterexample shows.) -/
theorem c3_amended_fade_zero_identity (r : Region) (w h : ℕ)
    (hsx : 0 ≤ r.srcSize.x) (hsy : 0 ≤ r.srcSize.y) :
    (resolve r 0 w h).dstWidth = (resolve r 0 w h).srcWidth ∧
    (resolve r 0 w h).dstHeight = (resolve r 0 w h).srcHeight ∧
    (resolve r 0 w h).dstX0 = (resolve r 0 w h).srcX0 ∧
    (resolve r 0 w h).dstY0 = (resolve r 0 w h).srcY0 ∧
    (resolve r 0 w h).realZoom = 1 := by
  have hrz : realZoomQ r 0 = 1 := by
    rw [realZoomQ]
    exact lerp_zero 1 _
  have hWq : (0:ℚ) ≤ r.srcSize.x * h + 1/2 := by
    have := mul_nonneg hsx (Nat.cast_nonneg (α := ℚ) h)
    linarith
  have hHq : (0:ℚ) ≤ r.srcSize.y * h + 1/2 := by
    have := mul_nonneg hsy (Nat.cast_nonneg (α := ℚ) h)
    linarith
  have hW : 0 ≤ srcWidthZ r h := truncQ_nonneg hWq
  have hH : 0 ≤ srcHeightZ r h := truncQ_nonneg hHq
  have floor_plus_half : ∀ z : ℤ, 0 ≤ z → truncQ ((z : ℚ) + 1/2) = z := by
    intro z hz
    have hnn : (0:ℚ) ≤ (z : ℚ) + 1/2 := by
      have : (0:ℚ) ≤ (z : ℚ) := Int.cast_nonneg.mpr hz
      linarith
    rw [truncQ_eq_floor hnn, Int.floor_int_add]
    norm_num
  have hdW : dstWidthZ r 0 h = srcWidthZ r h := by
    rw [dstWidthZ, hrz, mul_one]
    exact floor_plus_half _ hW
  have hdH : dstHeightZ r 0 h = srcHeightZ r h := by
    rw [dstHeightZ, hrz, mul_one]
    exact floor_plus_half _ hH
  refine ⟨?_, ?_, ?_, ?_, ?_⟩
  · rw [resolve_dstWidth, resolve_srcWidth, hdW]
  · rw [resolve_dstHeight, resolve_srcHeight, hdH]
  · rw [resolve_dstX0, resolve_srcX0, dstX0Z, srcX0Z, hdW, lerp_zero]
  · rw [resolve_dstY0, resolve_srcY0, dstY0Z, srcY0Z, hdH, lerp_zero]
  · rw [resolve_realZoom, hrz]

/-- C3 witness: the amended claim applied to a concrete in-range region
on a 100×100 frame. -/
theorem c3_witness :
    (0 ≤ witRegion.srcSize.x ∧ 0 ≤ witRegion.srcSize.y) ∧
    ((resolve witRegion 0 100 100).dstWidth = (resolve witRegion 0 100 100).srcWidth ∧
     (resolve witRegion 0 100 100).dstHeight = (resolve witRegion 0 100 100).srcHeight ∧
     (resolve witRegion 0 100 100).dstX0 = (resolve witRegion 0 100 100).srcX0 ∧
     (resolve witRegion 0 100 100).dstY0 = (resolve witRegion 0 100 100).srcY0 ∧
     (resolve witRegion 0 100 100).realZoom = 1) :=
  ⟨⟨by norm_num [witRegion], by norm_num [witRegion]⟩,
   c3_amended_fade_zero_identity witRegion 100 100
     (by norm_num [witRegion]) (by norm_num [witRegion])⟩

/-- C6 counterexample: a region with non-negative source size but
negative destination zoom (`-1/10`): at `fade = 1` the resolved
`realZoom` is `-1 < 0` and the resolved destination width is `-49 < 0`.
The original claim constrained only the source size, not the zoom. -/
theorem c6_counterexample :
    0 ≤ cexC6.srcSize.x ∧ 0 ≤ cexC6.srcSize.y ∧ ((0:ℚ) ≤ 1 ∧ (1:ℚ) ≤ 1) ∧
    (resolve cexC6 1 100 100).realZoom < 0 ∧
    (resolve cexC6 1 100 100).dstWidth < 0 := by
  have hrz : realZoomQ cexC6 1 = -1 := by
    rw [realZoomQ, lerp_one]
    norm_num [cexC6]
  have hsw : srcWidthZ cexC6 100 = 50 := by
    rw [srcWidthZ]
    norm_num [cexC6, truncQ, Int.floor_eq_iff]
  have hdw : dstWidthZ cexC6 1 100 = -49 := by
    rw [dstWidthZ, hsw, hrz]
    norm_num [truncQ, Int.ceil_eq_iff]
  refine ⟨by norm_num [cexC6], by norm_num [cexC6], ⟨by norm_num, le_refl 1⟩, ?_, ?_⟩
  · rw [resolve_realZoom, hrz]
    norm_num
  · rw [resolve_dstWidth, hdw]
    norm_num

/-- C6 (amended): for every region with non-negative `srcSize.x`,
`srcSize.y` and non-negative `dstZoom`, and every fade in `[0,1]`, the
resolved source and destination widths and heights are all ≥ 0 and
`realZoom ≥ 0`.  (The original claim did not constrain `dstZoom`; a
negative zoom makes `realZoom` and the destination extent negative, as
the counterexample shows.) -/
theorem c6_amended_nonneg_geometry (r : Region) (fade : ℚ) (w h : ℕ)
    (hsx : 0 ≤ r.srcSize.x) (hsy : 0 ≤ r.srcSize.y) (hz : 0 ≤ r.dstZoom)
    (hf0 : 0 ≤ fade) (hf1 : fade ≤ 1) :
    0 ≤ (resolve r fade w h).srcWidth ∧ 0 ≤ (resolve r fade w h).srcHeight ∧
    0 ≤ (resolve r fade w h).dstWidth ∧ 0 ≤ (resolve r fade w h).dstHeight ∧
    0 ≤ (resolve r fade w h).realZoom := by
  have hWq : (0:ℚ) ≤ r.srcSize.x * h + 1/2 := by
    have := mul_nonneg hsx (Nat.cast_nonneg (α := ℚ) h)
    linarith
  have hHq : (0:ℚ) ≤ r.srcSize.y * h + 1/2 := by
    have := mul_nonneg hsy (Nat.cast_nonneg (α := ℚ) h)
    linarith
  have hW : 0 ≤ srcWidthZ r h := truncQ_nonneg hWq
  have hH : 0 ≤ srcHeightZ r h := truncQ_nonneg hHq
  have hrz : 0 ≤ realZoomQ r fade := by
    rw [realZoomQ]
    exact lerp_nonneg fade zero_le_one (mul_nonneg hz (by norm_num))
  have hdW : 0 ≤ dstWidthZ r fade h := by
    refine truncQ_nonneg ?_
    have : (0:ℚ) ≤ (srcWidthZ r h : ℚ) * realZoomQ r fade :=
      mul_nonneg (Int.cast_nonneg.mpr hW) hrz
    linarith
  have hdH : 0 ≤ dstHeightZ r fade h := by
    refine truncQ_nonneg ?_
    have : (0:ℚ) ≤ (srcHeightZ r h : ℚ) * realZoomQ r fade :=
      mul_nonneg (Int.cast_nonneg.mpr hH) hrz
    linarith
  exact ⟨hW, hH, hdW, hdH, hrz⟩

/-- C6 witness: the amended claim applied to a concrete region with
non-negative size and zoom at `fade = 1/2` on a 100×100 frame. -/
theorem c6_witness :
    (0 ≤ witRegion.srcSize.x ∧ 0 ≤ witRegion.srcSize.y ∧ 0 ≤ witRegion.dstZoom ∧
      (0:ℚ) ≤ 1/2 ∧ (1/2:ℚ) ≤ 1) ∧
    (0 ≤ (resolve witRegion (1/2) 100 100).srcWidth ∧
     0 ≤ (resolve witRegion (1/2) 100 100).srcHeight ∧
     0 ≤ (resolve witRegion (1/2) 100 100).dstWidth ∧
     0 ≤ (resolve witRegion (1/2) 100 100).dstHeight ∧
     0 ≤ (resolve witRegion (1/2) 100 100).realZoom) :=
  ⟨⟨by norm_num [witRegion], by norm_num [witRegion], by norm_num [witRegion],
    by norm_num, by norm_num⟩,
   c6_amended_nonneg_geometry witRegion (1/2) 100 100
     (by norm_num [witRegion]) (by norm_num [witRegion]) (by norm_num [witRegion])
     (by norm_num) (by norm_num)⟩

/-- C10 counterexample: with `dstZoom = 0` (which lies in `[0,1]`) and
`fade = 1`, the resolved `realZoom` is exactly 0, so the divisor of the
paint transform `dstX0 / realZoom` is zero. -/
theorem c10_counterexample :
    (0:ℚ) ≤ cexC10.dstZoom ∧ cexC10.dstZoom ≤ 1 ∧ ((0:ℚ) ≤ 1 ∧ (1:ℚ) ≤ 1) ∧
    (resolve cexC10 1 100 100).realZoom = 0 := by
  refine ⟨by norm_num [cexC10], by norm_num [cexC10], ⟨by norm_num, le_refl 1⟩, ?_⟩
  rw [resolve_realZoom, realZoomQ, lerp_one]
  norm_num [cexC10]

/-- C10 (amended): for every region with `dstZoom` in the half-open
interval `(0,1]` and every fade in `[0,1]`, the resolved `realZoom` is
nonzero, so the division `dstX0 / realZoom` in the magnified-paint step
is well-defined.  (At the excluded point `dstZoom = 0`, `fade = 1` the
divisor is exactly 0, as the counterexample shows.) -/
theorem c10_amended_realZoom_nonzero (r : Region) (fade : ℚ) (w h : ℕ)
    (hz0 : 0 < r.dstZoom) (hz1 : r.dstZoom ≤ 1)
    (hf0 : 0 ≤ fade) (hf1 : fade ≤ 1) :
    (resolve r fade w h).realZoom ≠ 0 := by
  rw [resolve_realZoom, realZoomQ, lerp_eq_of_le _ _ hf0 hf1]
  have hpos : 0 < (1 - fade) * 1 + fade * (r.dstZoom * 10) := by
    rcases eq_or_lt_of_le hf1 with heq | hlt
    · have hz10 : 0 < r.dstZoom * 10 := by positivity
      rw [← heq]
      nlinarith
    · have h1f : 0 < (1 - fade) * 1 := by nlinarith
      have h2f : 0 ≤ fade * (r.dstZoom * 10) := by positivity
      linarith
  exact hpos.ne'

/-- C10 witness: the amended claim applied to a concrete region with
`dstZoom = 1/5` at `fade = 1/2`. -/
theorem c10_witness :
    ((0:ℚ) < witRegion.dstZoom ∧ witRegion.dstZoom ≤ 1 ∧ (0:ℚ) ≤ 1/2 ∧ (1/2:ℚ) ≤ 1) ∧
    (resolve witRegion (1/2) 100 100).realZoom ≠ 0 :=
  ⟨⟨by norm_num [witRegion], by norm_num [witRegion], by norm_num, by norm_num⟩,
   c10_amended_realZoom_nonzero witRegion (1/2) 100 100
     (by norm_num [witRegion]) (by norm_num [witRegion]) (by norm_num) (by norm_num)⟩

/-- C1 counterexample: on a 100×100 frame with `srcCenter.x = 1/10` and
`srcSize.x = 1/5`, the code computes `srcX0 = trunc(-30 - 10 + 0.5) =
-39` while the specification formula `round((srcCenter.x·2 - 0.5)·width
- srcWidth/2)` gives `round(-40) = -40`: the code's truncation toward
zero differs from rounding to nearest at negative coordinates. -/
theorem c1_counterexample :
    (resolve cexC1 0 100 100).srcX0 = -39 ∧
    (specSrcRect cexC1 100 100).srcX0 = -40 ∧
    srcRect (resolve cexC1 0 100 100) ≠ specSrcRect cexC1 100 100 := by
  have hsw : srcWidthZ cexC1 100 = 20 := by
    rw [srcWidthZ]
    norm_num [cexC1, truncQ, Int.floor_eq_iff]
  have htd : Int.tdiv 20 2 = 10 := by decide
  have hx : srcX0Z cexC1 100 100 = -39 := by
    rw [srcX0Z, hsw, htd]
    norm_num [cexC1, truncQ, Int.ceil_eq_iff]
  have hin : round (cexC1.srcSize.x * ((100:ℕ) : ℚ)) = 20 := by
    norm_num [cexC1, round_eq, Int.floor_eq_iff]
  have hspec : (specSrcRect cexC1 100 100).srcX0 = -40 := by
    simp only [specSrcRect]
    rw [hin]
    norm_num [cexC1, round_eq, Int.floor_eq_iff]
  refine ⟨by rw [resolve_srcX0, hx], hspec, ?_⟩
  intro hcontra
  have : (srcRect (resolve cexC1 0 100 100)).srcX0 = (specSrcRect cexC1 100 100).srcX0 := by
    rw [hcontra]
  rw [srcRect, resolve_srcX0, hx, hspec] at this
  norm_num at this

/-- C1 (amended): for every region with non-negative source size, even
resolved source width and height, and source positions whose pre-rounding
values are non-negative, the code's integer source rectangle coincides
with the specification's rounding formulas (`srcWidth = round(srcSize.x ×
frameHeight)`, `srcX0 = round((srcCenter.x × 2 − 0.5) × frameWidth −
srcWidth/2)` with exact halves, and the vertical analogues).  Outside
these conditions the code truncates toward zero and halves `srcWidth`
with truncating integer division, which differ from the claimed formulas
as the counterexample shows. -/
theorem c1_amended_src_geometry (r : Region) (fade : ℚ) (w h : ℕ)
    (hsx : 0 ≤ r.srcSize.x) (hsy : 0 ≤ r.srcSize.y)
    (hwE : 2 ∣ srcWidthZ r h) (hhE : 2 ∣ srcHeightZ r h)
    (hx : 0 ≤ (r.srcCenter.x * 2 - 1/2) * w - (srcWidthZ r h : ℚ) / 2 + 1/2)
    (hy : 0 ≤ (r.srcCenter.y * 2 - 1/2) * h - (srcHeightZ r h : ℚ) / 2 + 1/2) :
    srcRect (resolve r fade w h) = specSrcRect r w h := by
  have hWq : (0:ℚ) ≤ r.srcSize.x * h + 1/2 := by
    have := mul_nonneg hsx (Nat.cast_nonneg (α := ℚ) h)
    linarith
  have hHq : (0:ℚ) ≤ r.srcSize.y * h + 1/2 := by
    have := mul_nonneg hsy (Nat.cast_nonneg (α := ℚ) h)
    linarith
  have hW : srcWidthZ r h = round (r.srcSize.x * (h : ℚ)) := by
    rw [srcWidthZ, truncQ_eq_floor hWq, round_eq]
  have hH : srcHeightZ r h = round (r.srcSize.y * (h : ℚ)) := by
    rw [srcHeightZ, truncQ_eq_floor hHq, round_eq]
  have hX : srcX0Z r w h =
      round ((r.srcCenter.x * 2 - 1/2) * w - (srcWidthZ r h : ℚ) / 2) := by
    rw [srcX0Z, tdiv_two_cast_of_dvd hwE, truncQ_eq_floor hx, round_eq]
  have hY : srcY0Z r h =
      round ((r.srcCenter.y * 2 - 1/2) * h - (srcHeightZ r h : ℚ) / 2) := by
    rw [srcY0Z, tdiv_two_cast_of_dvd hhE, truncQ_eq_floor hy, round_eq]
  simp only [srcRect, resolve_srcWidth, resolve_srcHeight, resolve_srcX0,
    resolve_srcY0, specSrcRect]
  rw [← hW, ← hH, SrcRect.mk.injEq]
  exact ⟨rfl, rfl, hX, hY⟩

/-- C1 witness: the amended claim applied to a concrete in-range region
(source width 20, even; in-frame source position) on a 100×100 frame. -/
theorem c1_witness :
    (0 ≤ witC1.srcSize.x ∧ 0 ≤ witC1.srcSize.y ∧
     2 ∣ srcWidthZ witC1 100 ∧ 2 ∣ srcHeightZ witC1 100 ∧
     0 ≤ (witC1.srcCenter.x * 2 - 1/2) * ((100:ℕ) : ℚ) - (srcWidthZ witC1 100 : ℚ) / 2 + 1/2 ∧
     0 ≤ (witC1.srcCenter.y * 2 - 1/2) * ((100:ℕ) : ℚ) - (srcHeightZ witC1 100 : ℚ) / 2 + 1/2) ∧
    srcRect (resolve witC1 0 100 100) = specSrcRect witC1 100 100 := by
  have hw20 : srcWidthZ witC1 100 = 20 := by
    rw [srcWidthZ]
    norm_num [witC1, truncQ, Int.floor_eq_iff]
  have hh20 : srcHeightZ witC1 100 = 20 := by
    rw [srcHeightZ]
    norm_num [witC1, truncQ, Int.floor_eq_iff]
  refine ⟨⟨by norm_num [witC1], by norm_num [witC1], ?_, ?_, ?_, ?_⟩, ?_⟩
  · rw [hw20]
    decide
  · rw [hh20]
    decide
  · rw [hw20]
    norm_num [witC1]
  · rw [hh20]
    norm_num [witC1]
  · exact c1_amended_src_geometry witC1 0 100 100
      (by norm_num [witC1]) (by norm_num [witC1])
      (by rw [hw20]; decide) (by rw [hh20]; decide)
      (by rw [hw20]; norm_num [witC1]) (by rw [hh20]; norm_num [witC1])

/-- C2 counterexample: the specification's own worked example
(`dstCenter = (0.8, 0.2)`, `dstZoom = 0.3`, 100×100 frame, `fade = 1`):
the resolved destination rectangle is centered at x = 80 + 60/2 = 110,
which differs from `dstCenter.x × frameWidth = 80` by 30 — far beyond
rounding.  The code centers the rectangle at `(dstCenter×2 − 0.5) ×
frameDimension`, not at `dstCenter × frameDimension`. -/
theorem c2_counterexample :
    ((resolve cexC2 1 100 100).dstX0 : ℚ) + ((resolve cexC2 1 100 100).dstWidth : ℚ) / 2
      - cexC2.dstCenter.x * 100 = 30 ∧
    1 < |((resolve cexC2 1 100 100).dstX0 : ℚ) + ((resolve cexC2 1 100 100).dstWidth : ℚ) / 2
      - cexC2.dstCenter.x * 100| := by
  have hsw : srcWidthZ cexC2 100 = 20 := by
    rw [srcWidthZ]
    norm_num [cexC2, truncQ, Int.floor_eq_iff]
  have hrz : realZoomQ cexC2 1 = 3 := by
    rw [realZoomQ, lerp_one]
    norm_num [cexC2]
  have hdw : dstWidthZ cexC2 1 100 = 60 := by
    rw [dstWidthZ, hsw, hrz]
    norm_num [truncQ, Int.floor_eq_iff]
  have htd : Int.tdiv 60 2 = 30 := by decide
  have hdx : dstX0Z cexC2 1 100 100 = 80 := by
    rw [dstX0Z, hdw, htd, lerp_one]
    norm_num [cexC2, truncQ, Int.floor_eq_iff]
  constructor
  · rw [resolve_dstX0, resolve_dstWidth, hdx, hdw]
    norm_num [cexC2]
  · rw [resolve_dstX0, resolve_dstWidth, hdx, hdw]
    norm_num [cexC2]

/-- C2 (amended): for every region, at `fade = 1` the resolved
`realZoom` equals `dstZoom × 10`, and — whenever the resolved
destination extent is non-negative and the pre-truncation destination
position is non-negative — the center of the resolved destination
rectangle lies within 1 pixel of `(dstCenter × 2 − 0.5) ×
frameDimension` (the code's remapping of the configured center), not of
`dstCenter × frameDimension` as originally claimed. -/
theorem c2_amended_full_fade (r : Region) (w h : ℕ)
    (hdw : 0 ≤ dstWidthZ r 1 h) (hdh : 0 ≤ dstHeightZ r 1 h)
    (hx : 0 ≤ (r.dstCenter.x * 2 - 1/2) * w - ((Int.tdiv (dstWidthZ r 1 h) 2 : ℤ) : ℚ) + 1/2)
    (hy : 0 ≤ (r.dstCenter.y * 2 - 1/2) * h - ((Int.tdiv (dstHeightZ r 1 h) 2 : ℤ) : ℚ) + 1/2) :
    (resolve r 1 w h).realZoom = r.dstZoom * 10 ∧
    |((resolve r 1 w h).dstX0 : ℚ) + ((resolve r 1 w h).dstWidth : ℚ) / 2
      - (r.dstCenter.x * 2 - 1/2) * w| ≤ 1 ∧
    |((resolve r 1 w h).dstY0 : ℚ) + ((resolve r 1 w h).dstHeight : ℚ) / 2
      - (r.dstCenter.y * 2 - 1/2) * h| ≤ 1 := by
  refine ⟨?_, ?_, ?_⟩
  · rw [resolve_realZoom, realZoomQ, lerp_one]
  · rw [resolve_dstX0, resolve_dstWidth, dstX0Z, lerp_one]
    exact trunc_center_bound ((r.dstCenter.x * 2 - 1/2) * w) (dstWidthZ r 1 h) hdw hx
  · rw [resolve_dstY0, resolve_dstHeight, dstY0Z, lerp_one]
    exact trunc_center_bound ((r.dstCenter.y * 2 - 1/2) * h) (dstHeightZ r 1 h) hdh hy

/-- C2 witness: the amended claim applied to a concrete region
(`dstCenter = (0.8, 0.6)`, `dstZoom = 0.3`) on a 100×100 frame. -/
theorem c2_witness :
    (0 ≤ dstWidthZ witC2 1 100 ∧ 0 ≤ dstHeightZ witC2 1 100 ∧
     0 ≤ (witC2.dstCenter.x * 2 - 1/2) * ((100:ℕ) : ℚ)
       - ((Int.tdiv (dstWidthZ witC2 1 100) 2 : ℤ) : ℚ) + 1/2 ∧
     0 ≤ (witC2.dstCenter.y * 2 - 1/2) * ((100:ℕ) : ℚ)
       - ((Int.tdiv (dstHeightZ witC2 1 100) 2 : ℤ) : ℚ) + 1/2) ∧
    ((resolve witC2 1 100 100).realZoom = witC2.dstZoom * 10 ∧
     |((resolve witC2 1 100 100).dstX0 : ℚ) + ((resolve witC2 1 100 100).dstWidth : ℚ) / 2
       - (witC2.dstCenter.x * 2 - 1/2) * ((100:ℕ) : ℚ)| ≤ 1 ∧
     |((resolve witC2 1 100 100).dstY0 : ℚ) + ((resolve witC2 1 100 100).dstHeight : ℚ) / 2
       - (witC2.dstCenter.y * 2 - 1/2) * ((100:ℕ) : ℚ)| ≤ 1) := by
  have hsw : srcWidthZ witC2 100 = 20 := by
    rw [srcWidthZ]
    norm_num [witC2, truncQ, Int.floor_eq_iff]
  have hsh : srcHeightZ witC2 100 = 20 := by
    rw [srcHeightZ]
    norm_num [witC2, truncQ, Int.floor_eq_iff]
  have hrz : realZoomQ witC2 1 = 3 := by
    rw [realZoomQ, lerp_one]
    norm_num [witC2]
  have hdw : dstWidthZ witC2 1 100 = 60 := by
    rw [dstWidthZ, hsw, hrz]
    norm_num [truncQ, Int.floor_eq_iff]
  have hdh : dstHeightZ witC2 1 100 = 60 := by
    rw [dstHeightZ, hsh, hrz]
    norm_num [truncQ, Int.floor_eq_iff]
  have htd : Int.tdiv 60 2 = 30 := by decide
  refine ⟨⟨?_, ?_, ?_, ?_⟩, ?_⟩
  · rw [hdw]
    decide
  · rw [hdh]
    decide
  · rw [hdw, htd]
    norm_num [witC2]
  · rw [hdh, htd]
    norm_num [witC2]
  · exact c2_amended_full_fade witC2 100 100
      (by rw [hdw]; decide) (by rw [hdh]; decide)
      (by rw [hdw, htd]; norm_num [witC2]) (by rw [hdh, htd]; norm_num [witC2])

/-- C8: for every interpretation of the rasterised drawing operations,
every configuration with `showMagnified = false` and `showWireframe =
false`, every fade, frame size and buffers, the render call leaves the
destination buffer exactly equal to a straight copy of the source
buffer: both drawing loops are skipped, and only the base copy runs. -/
theorem c8_flags_off_pure_copy (interp : DrawOp → Buffer → Buffer → Buffer)
    (cfg : GlobalConfig) (fade : ℚ) (w h : ℕ) (dst src2 src : Buffer)
    (hm : cfg.showMagnified = false) (hw : cfg.showWireframe = false) :
    update interp cfg fade w h dst src2 src = src := by
  simp [update, updateTrace, hm, hw, runOp]

/-- C8 witness: with all three regions configured but both flags off,
rendering over concrete buffers returns exactly the source buffer. -/
theorem c8_witness :
    cfgOff.showMagnified = false ∧ cfgOff.showWireframe = false ∧
    update (fun _ _ d => d) cfgOff 0 4 4 (fun _ _ => 0) (fun _ _ => 1) (fun _ _ => 2)
      = (fun _ _ => 2) :=
  ⟨rfl, rfl,
   c8_flags_off_pure_copy (fun _ _ d => d) cfgOff 0 4 4
     (fun _ _ => 0) (fun _ _ => 1) (fun _ _ => 2) rfl rfl⟩

/-- C9: the rendered output does not depend on the second source buffer:
two render invocations that agree on the interpretation, configuration,
fade, frame size, destination and first source buffer but differ
arbitrarily in the second source buffer produce identical outputs (the
code never reads `rawSrc2`). -/
theorem c9_second_source_unused (interp : DrawOp → Buffer → Buffer → Buffer)
    (cfg : GlobalConfig) (fade : ℚ) (w h : ℕ) (dst src srcB srcB2 : Buffer) :
    update interp cfg fade w h dst srcB src = update interp cfg fade w h dst srcB2 src :=
  rfl

end Loupe
